import Mathlib

/-!
Verification of the PostgresToMongoETL repository: a shallow embedding of the
connection-configuration, connection-manager, CRUD/retry, user-administration
and migration-pipeline code from `src/db_managing`, together with theorems
settling the specified behavioural claims.
-/

set_option linter.unusedVariables false

/-- Python exception values that the embedded code can raise.  `operationFailure`
carries the MongoDB error code (13/18 = authorization failures, 11 = user not
found, 51003 = user already exists), mirroring `pymongo.errors.OperationFailure`. -/
inductive PyErr where
  | connectionFailure
  | networkTimeout
  | serverSelectionTimeout
  | operationFailure (code : Nat) (msg : String)
  | duplicateKeyError
  | valueError (msg : String)
  | attributeError (msg : String)
  | typeError (msg : String)
  | crudError (msg : String)
deriving DecidableEq, Repr

/-- Exceptions that are subclasses of `pymongo.errors.PyMongoError`.
`MongoDBCrudError` (`crudError`) is declared as a plain `Exception` subclass in
`mongodb_crud.py`, so it is not one of them; neither are the builtin
`ValueError` / `AttributeError` / `TypeError`. -/
def isPyMongoError : PyErr → Bool
  | .connectionFailure => true
  | .networkTimeout => true
  | .serverSelectionTimeout => true
  | .operationFailure _ _ => true
  | .duplicateKeyError => true
  | _ => false

/-- `str(e)` for an exception, as interpolated into wrapper messages. -/
def pyErrStr : PyErr → String
  | .connectionFailure => "ConnectionFailure"
  | .networkTimeout => "NetworkTimeout"
  | .serverSelectionTimeout => "ServerSelectionTimeoutError"
  | .operationFailure _ m => m
  | .duplicateKeyError => "DuplicateKeyError"
  | .valueError m => m
  | .attributeError m => m
  | .typeError m => m
  | .crudError m => m

/-- Python truthiness of a string: non-empty strings are truthy. -/
def strTruthy (s : String) : Bool := s ≠ ""

/-- Python truthiness of an optional string: `None` and `""` are falsy. -/
def optStrTruthy : Option String → Bool
  | none => false
  | some s => s ≠ ""

/-- `MongoDBConfig` from `src/db_managing/mongodb_config.py`.  All fields and
defaults are transcribed; `write_concern` is kept as its two effective entries
`w`/`j`, and `logger` / `connection_options` (free-form objects that do not
enter the connection string) are omitted. -/
structure MongoDBConfig where
  host : String
  port : Nat
  database : String
  user : Option String := none
  password : Option String := none
  auth_source : String := "admin"
  auth_mechanism : String := "SCRAM-SHA-256"
  enable_auth : Bool := true
  application_name : String := "MongoDBManager"
  min_pool_size : Nat := 5
  max_pool_size : Nat := 20
  connect_timeout_ms : Nat := 30000
  server_selection_timeout_ms : Nat := 30000
  socket_timeout_ms : Nat := 30000
  max_idle_time_ms : Nat := 600000
  enable_ssl : Bool := false
  ssl_cert_reqs : String := "CERT_NONE"
  replica_set : Option String := none
  read_preference : String := "primary"
  write_concern_w : Nat := 1
  write_concern_j : Bool := true
  retry_writes : Bool := true
  retry_reads : Bool := true
deriving DecidableEq, Repr

/-- `MongoDBConfig.get_connection_string` (`mongodb_config.py`, lines 47-63):
credential segment only when auth is enabled and both user and password are
truthy; query parameters collected in source order, `None` entries filtered
out, and joined with `&` after a `?` when any survive. -/
def MongoDBConfig.get_connection_string (c : MongoDBConfig) : String :=
  let auth_part :=
    if c.enable_auth ∧ optStrTruthy c.user ∧ optStrTruthy c.password then
      c.user.getD "" ++ ":" ++ c.password.getD "" ++ "@"
    else ""
  let connection_string :=
    "mongodb://" ++ auth_part ++ c.host ++ ":" ++ toString c.port ++ "/" ++ c.database
  let params : List (Option String) :=
    [ if c.enable_auth ∧ strTruthy c.auth_source then
        some ("authSource=" ++ c.auth_source) else none,
      if c.enable_auth ∧ strTruthy c.auth_mechanism then
        some ("authMechanism=" ++ c.auth_mechanism) else none,
      if strTruthy c.application_name then
        some ("appName=" ++ c.application_name) else none,
      match c.replica_set with
      | some r => if strTruthy r then some ("replicaSet=" ++ r) else none
      | none => none,
      if strTruthy c.read_preference then
        some ("readPreference=" ++ c.read_preference) else none,
      if c.retry_writes then some "retryWrites=true" else none,
      if c.retry_reads then some "retryReads=true" else none ]
  let kept := params.filterMap id
  if kept.isEmpty then connection_string
  else connection_string ++ "?" ++ String.intercalate "&" kept

/-- Whether the character list `pat` occurs contiguously inside `l`. -/
def hasSubLC (pat : List Char) : List Char → Bool
  | [] => pat.isEmpty
  | c :: cs => pat.isPrefixOf (c :: cs) || hasSubLC pat cs

/-- Whether the string `pat` occurs as a substring of `s`. -/
def strHasSub (s pat : String) : Bool := hasSubLC pat.data s.data

/-- Whether the character `c` occurs in the string `s`. -/
def strHasChar (s : String) (c : Char) : Bool := s.data.contains c

/-- The config of the end-to-end connection-string scenario:
`{host: "localhost", port: 27017, database: "d", enable_auth: false}`,
every other field left at its declared default. -/
def cfgC6 : MongoDBConfig :=
  { host := "localhost", port := 27017, database := "d", enable_auth := false }

/-- Outcomes of the two external calls made by
`MongoDBManager.verify_connection` (`mongodb_manager.py`, lines 298-317):
the exception (if any) raised by `_initialize_client()` and the exception
(if any) raised by the liveness round-trip `self._client.admin.command('ping')`. -/
structure ConnEnv where
  initErr : Option PyErr := none
  pingErr : Option PyErr := none
deriving DecidableEq, Repr

/-- `MongoDBManager.verify_connection` (`mongodb_manager.py`, lines 298-317).
The body runs `_initialize_client()` then the ping; the
`except (ConnectionFailure, ServerSelectionTimeoutError)` clause logs and
re-raises, and the `except Exception` clause logs and re-raises, so every
failure propagates unchanged.  The manager's config copy is returned alongside
the success flag to make explicit that no branch modifies it. -/
def MongoDBManager.verify_connection (cfg : MongoDBConfig) (env : ConnEnv) :
    Except PyErr (MongoDBConfig × Bool) :=
  match env.initErr with
  | some e => .error e
  | none =>
    match env.pingErr with
    | some e => .error e
    | none => .ok (cfg, true)

/-- Authorization failures, as classified throughout the repository
(`OperationFailure` with code 13 or 18). -/
def isAuthError : PyErr → Bool
  | .operationFailure c _ => c = 13 || c = 18
  | _ => false

/-- Attribute names defined on `MongoDBManager` (`mongodb_manager.py`,
lines 105-773): the class attributes, the methods, and the instance
attributes assigned in `__init__`.  The list is exhaustive; in particular no
`RETRYABLE_ERRORS` attribute is ever defined. -/
def mongoDBManagerAttrs : List String :=
  [ "_instance", "_lock", "_is_temporary", "db_config", "default_db_config",
    "_logger", "_client", "_db", "_initialized", "operation_history",
    "max_operation_history", "give_up_handler", "create_temporary_instance",
    "_initialize_client", "get_client", "get_database", "get_collection",
    "client_context", "database_context", "collection_context",
    "close_connection", "verify_connection", "execute_operation", "find",
    "find_one", "insert_one", "insert_many", "update_one", "update_many",
    "delete_one", "delete_many", "aggregate", "count_documents",
    "create_index", "drop_index", "list_indexes", "create_collection",
    "drop_collection", "list_collections", "get_active_sessions",
    "kill_operation", "get_server_status", "get_database_stats",
    "get_collection_stats", "repair_database", "compact_collection" ]

/-- Python attribute lookup on a (fully initialised) `MongoDBManager`
instance: returns the attribute name as an opaque token when it is defined,
and raises `AttributeError` otherwise. -/
def managerGetattr (name : String) : Except PyErr String :=
  if mongoDBManagerAttrs.contains name then .ok name
  else .error (.attributeError name)

/-- `MongoCRUD.__init__` (`mongodb_crud.py`, lines 21-30): stores the manager,
reads `mongo_db_manager._logger`, then reads `mongo_db_manager.RETRYABLE_ERRORS`.
Each attribute read is an ordinary Python attribute lookup that raises
`AttributeError` when the attribute is undefined.  The returned pair records
which attributes were successfully read. -/
def MongoCRUD.init : Except PyErr (String × String) := do
  let lg ← managerGetattr "_logger"
  let re ← managerGetattr "RETRYABLE_ERRORS"
  return (lg, re)

/-- The `backoff.on_exception(backoff.expo, PyMongoError, max_tries=3, ...)`
decorator on `MongoCRUD._execute_operation` (`mongodb_crud.py`, lines 47-53).
Each attempt runs the body; a raised exception is retried only when it is a
`PyMongoError`.  On a matching exception the library first calls the
`giveup` callable with the exception as its single argument — here
`_give_up_handler(self, details)` passed unbound, so that call itself raises
`TypeError` (missing positional argument) before any retry decision.
Returns the result together with the number of attempts made. -/
def backoffLoop (body : Nat → Except PyErr α) : Nat → Nat → Except PyErr α × Nat
  | 0, attempt => (.error (.typeError "max_tries must be positive"), attempt - 1)
  | fuel + 1, attempt =>
    match body attempt with
    | .ok a => (.ok a, attempt)
    | .error e =>
      if isPyMongoError e then
        -- giveup(e): `_give_up_handler` invoked with one argument instead of two
        (.error (.typeError
          "_give_up_handler() missing 1 required positional argument: 'details'"), attempt)
      else
        (.error e, attempt)

/-- The decorated call with 1-based attempt numbering. -/
def backoffExecute (maxTries : Nat) (body : Nat → Except PyErr α) : Except PyErr α × Nat :=
  backoffLoop body maxTries 1

/-- The body of `MongoCRUD._execute_operation` (`mongodb_crud.py`, lines
54-63): resolve the collection, call the named method (outcome `op attempt`),
and on a `PyMongoError` log and re-raise it wrapped as `MongoDBCrudError` —
which is *not* a `PyMongoError`, so the wrapped error escapes the retry
decorator.  Non-`PyMongoError` exceptions propagate unwrapped. -/
def executeOperationBody (op : Nat → Except PyErr α)
    (method_name collection_name : String) (attempt : Nat) : Except PyErr α :=
  match op attempt with
  | .ok a => .ok a
  | .error e =>
    if isPyMongoError e then
      .error (.crudError ("Failed to execute operation '" ++ method_name ++
        "' on collection '" ++ collection_name ++ "': " ++ pyErrStr e))
    else
      .error e

/-- `MongoCRUD._execute_operation` as called by callers: the decorated body,
with the decorator's `max_tries=3`.  Returns the caller-visible outcome and
the number of attempts actually made against the collection. -/
def MongoCRUD.execute_operation (op : Nat → Except PyErr α)
    (method_name collection_name : String) : Except PyErr α × Nat :=
  backoffExecute 3 (executeOperationBody op method_name collection_name)

/-- A role grant on a server-level authentication principal: pymongo represents
it as the dict `{"role": ..., "db": ...}`. -/
structure MongoRole where
  role : String
  db : String
deriving DecidableEq, Repr

/-- One server-level authentication principal as stored in the target
authentication database (`createUser` document contents). -/
structure MongoAuthUser where
  user : String
  pwd : String
  roles : List MongoRole
deriving DecidableEq, Repr

/-- The authentication database of the document store: its list of principals.
The server model is honest — the administrative commands below behave as the
MongoDB manual specifies and raise no authorization failures. -/
abbrev AuthDB := List MongoAuthUser

/-- The `usersInfo` command restricted to one username: the `users` array of
the reply. -/
def usersInfoCmd (db : AuthDB) (username : String) : List MongoAuthUser :=
  db.filter (fun u => u.user == username)

/-- The `createUser` command: adds the principal document. -/
def createUserCmd (db : AuthDB) (username pwd : String) (roles : List MongoRole) : AuthDB :=
  db ++ [⟨username, pwd, roles⟩]

/-- The `updateUser ... roles=roles` command: replaces the role list of the
named principal. -/
def updateUserCmd (db : AuthDB) (username : String) (roles : List MongoRole) : AuthDB :=
  db.map (fun u => if u.user == username then { u with roles := roles } else u)

/-- The `dropUser` command: removes the named principal. -/
def dropUserCmd (db : AuthDB) (username : String) : AuthDB :=
  db.filter (fun u => !(u.user == username))

/-- `MongoDBUserAdmin.user_exists` (`mongodb_user_admin.py`, lines 10-31)
against the honest server: `usersInfo` is issued and the user exists iff the
returned `users` array is non-empty.  (The code additionally maps
authorization failures — codes 13/18 — of the probe itself to `False`; the
honest server raises none.) -/
def MongoDBUserAdmin.user_exists (db : AuthDB) (username : String) : Bool :=
  decide (0 < (usersInfoCmd db username).length)

/-- The result dict built by `MongoDBUserAdmin.manage_user`
(`mongodb_user_admin.py`, line 59 and following). -/
structure ManageResult where
  success : Bool := false
  created : Bool := false
  updated : Bool := false
  deleted : Bool := false
  message : Option String := none
deriving DecidableEq, Repr

/-- `MongoDBUserAdmin.manage_user` (`mongodb_user_admin.py`, lines 33-176)
against the honest server.  `password` is falsy when `None` or empty, `roles`
is falsy when empty; each action first performs the existence probe and then
issues the corresponding administrative command.  The outer
`except OperationFailure` arms never fire under the honest server (its
commands succeed with `ok: 1`), and the `except Exception` arm re-raises, so
every raised `ValueError` propagates. -/
def MongoDBUserAdmin.manage_user (db : AuthDB) (username : String)
    (password : Option String) (roles : List MongoRole) (action : String) :
    Except PyErr (AuthDB × ManageResult) :=
  let user_exists := MongoDBUserAdmin.user_exists db username
  if action = "create" then
    if user_exists then
      .ok (db, { success := false, message := some "User already exists" })
    else if !optStrTruthy password ∨ roles = [] then
      .error (.valueError "Password and roles are required for user creation")
    else
      .ok (createUserCmd db username (password.getD "") roles,
           { success := true, created := true })
  else if action = "update" then
    if !user_exists then
      .ok (db, { success := false, message := some "User does not exist" })
    else if roles = [] then
      .error (.valueError "Roles are required for user update")
    else
      .ok (updateUserCmd db username roles, { success := true, updated := true })
  else if action = "ensure_exists" then
    if roles = [] then
      .error (.valueError "Roles are required")
    else if user_exists then
      .ok (updateUserCmd db username roles, { success := true, updated := true })
    else if !optStrTruthy password then
      .error (.valueError "Password is required for user creation")
    else
      .ok (createUserCmd db username (password.getD "") roles,
           { success := true, created := true })
  else if action = "delete" then
    if !user_exists then
      .ok (db, { success := false, message := some "User does not exist" })
    else
      .ok (dropUserCmd db username, { success := true, deleted := true })
  else
    .error (.valueError ("Invalid action: " ++ action ++
      ". Must be one of 'create', 'update', 'ensure_exists', 'delete'."))

/-- `User.ROLE_PERMISSIONS` (`mongodb_user.py`, lines 19-30): the fixed
role → permission-set table. -/
def ROLE_PERMISSIONS : List (String × List String) :=
  [ ("superadmin", ["readWriteAnyDatabase", "userAdminAnyDatabase", "dbAdminAnyDatabase"]),
    ("admin", ["readWrite", "userAdmin"]),
    ("dataengineer", ["readWrite", "dbAdmin"]),
    ("energyanalyst", ["read"]),
    ("viewer", ["read"]),
    ("sensormanager", ["readWrite"]),
    ("facilitymanager", ["readWrite"]),
    ("auditor", ["read"]),
    ("mlmodeltrainer", ["read", "write"]),
    ("apiclient", ["readWrite"]) ]

/-- Dictionary lookup in `ROLE_PERMISSIONS`. -/
def roleLookup (r : String) : Option (List String) :=
  (ROLE_PERMISSIONS.find? (fun kv => kv.1 == r)).map (fun kv => kv.2)

/-- The application-level `User` dataclass (`mongodb_user.py`, lines 6-16).
`metadata` is kept as a string-to-string association list; `_id` is the
store-assigned identifier. -/
structure User where
  username : String
  email : String
  role : String
  hashed_password : String
  active : Bool := true
  metadata : List (String × String) := []
  id : Option Nat := none
  permissions : List String := []
deriving DecidableEq, Repr

/-- Constructing a `User` runs `__post_init__` (`mongodb_user.py`, lines
81-92): empty username or email and unknown roles raise `ValueError`, and an
empty permission list is replaced by the role's entry in `ROLE_PERMISSIONS`. -/
def User.make (username email role hashed_password : String) (active : Bool)
    (metadata : List (String × String)) : Except PyErr User :=
  if username = "" then .error (.valueError "Username cannot be empty")
  else if email = "" then .error (.valueError "Email cannot be empty")
  else
    match roleLookup role with
    | none => .error (.valueError ("Invalid role: " ++ role))
    | some perms =>
      .ok { username := username, email := email, role := role,
            hashed_password := hashed_password, active := active,
            metadata := metadata, permissions := perms }

/-- The `users` collection as read back into `User` records. -/
abbrev UserStore := List User

/-- `MongoDBUserManager.user_exists` (`mongodb_user_manager.py`, lines 21-32):
`count_documents({"username": username}) > 0`. -/
def MongoDBUserManager.user_exists (store : UserStore) (username : String) : Bool :=
  decide (0 < (store.filter (fun u => u.username == username)).length)

/-- `MongoDBUserManager.create_user` (`mongodb_user_manager.py`, lines
34-85).  `hashF` models `User.hash_password` (bcrypt with a fresh salt; the
store only ever sees its output).  The pre-check raises `ValueError` when the
username exists; otherwise the `User` is constructed (running its
validation) and inserted.  The in-memory insert cannot raise
`DuplicateKeyError`, and the catch-all arm re-raises, so validation errors
propagate. -/
def MongoDBUserManager.create_user (hashF : String → String) (store : UserStore)
    (username email role password : String) (metadata : List (String × String))
    (active : Bool) : Except PyErr (UserStore × User) :=
  if MongoDBUserManager.user_exists store username then
    .error (.valueError ("User with username '" ++ username ++ "' already exists"))
  else
    match User.make username email role (hashF password) active metadata with
    | .error e => .error e
    | .ok user => .ok (store ++ [user], user)

/-- External behaviour surrounding `MongoDBUserManager.authenticate_user`:
`checkpw` models `bcrypt.checkpw password hash`, and `findErr` an exception
raised by the underlying `find_one` (e.g. a connection loss), if any. -/
structure AuthEnv where
  checkpw : String → String → Bool
  findErr : Option PyErr := none

/-- `MongoDBUserManager.get_user` (`mongodb_user_manager.py`, lines 87-102):
`find_one({"username": username})` giving the first matching document, or an
exception from the store. -/
def MongoDBUserManager.get_user (env : AuthEnv) (store : UserStore)
    (username : String) : Except PyErr (Option User) :=
  match env.findErr with
  | some e => .error e
  | none => .ok (store.find? (fun u => u.username == username))

/-- `MongoDBUserManager.authenticate_user` (`mongodb_user_manager.py`, lines
122-141): look the user up; a missing or inactive user yields `False`;
otherwise `User.verify_password` decides; the surrounding
`except Exception` arm converts any raised error into `False`, so the
function is total. -/
def MongoDBUserManager.authenticate_user (env : AuthEnv) (store : UserStore)
    (username password : String) : Bool :=
  match MongoDBUserManager.get_user env store username with
  | .error _ => false
  | .ok none => false
  | .ok (some user) =>
    if !user.active then false
    else env.checkpw password user.hashed_password

/-- Python values as they occur in rows fetched from PostgreSQL and in update
payloads: `Decimal` (fixed-precision numeric), `float`, `int`, `str`, `bool`,
`None`, dicts and lists.  The numeric payload of `pdecimal`/`pfloat` is kept
abstract as an integer code — the claims under study are about which positions
are converted, not about numeric rounding. -/
inductive PValue where
  | pdecimal (v : Int)
  | pfloat (v : Int)
  | pint (n : Int)
  | pstr (s : String)
  | pbool (b : Bool)
  | pnone
  | pdict (fields : List (String × PValue))
  | plist (elems : List PValue)

/-- A row handed to the converter: `dict(row)`. -/
abbrev Row := List (String × PValue)

mutual

/-- The per-value branch of the loop body of
`PostgresToMongoTranslator._convert_decimals_to_float`
(`postgres_to_mongo_translator.py`, lines 51-58): a `Decimal` becomes a
`float`, a dict is recursed into, every other value — lists included — is
left as it is. -/
def convertEntryValue : PValue → PValue
  | .pdecimal v => .pfloat v
  | .pdict fields => .pdict (convert_decimals_to_float fields)
  | v => v

/-- `PostgresToMongoTranslator._convert_decimals_to_float`
(`postgres_to_mongo_translator.py`, lines 51-58): iterates over the dict
items applying the branch above to each value. -/
def convert_decimals_to_float : List (String × PValue) → List (String × PValue)
  | [] => []
  | (k, v) :: rest => (k, convertEntryValue v) :: convert_decimals_to_float rest

end

mutual

/-- Whether a value still contains a `Decimal` anywhere, lists included. -/
def pvalueHasDecimal : PValue → Bool
  | .pdecimal _ => true
  | .pdict fields => fieldsHaveDecimal fields
  | .plist elems => elemsHaveDecimal elems
  | _ => false

/-- `pvalueHasDecimal` over dict fields. -/
def fieldsHaveDecimal : List (String × PValue) → Bool
  | [] => false
  | (_, v) :: rest => pvalueHasDecimal v || fieldsHaveDecimal rest

/-- `pvalueHasDecimal` over list elements. -/
def elemsHaveDecimal : List PValue → Bool
  | [] => false
  | v :: rest => pvalueHasDecimal v || elemsHaveDecimal rest

end

mutual

/-- Whether a value contains no `Decimal` in any position reachable through
nested dicts alone (`Decimal`s inside lists are not counted). -/
def dictDecimalFree : PValue → Bool
  | .pdecimal _ => false
  | .pdict fields => fieldsDictDecimalFree fields
  | _ => true

/-- `dictDecimalFree` over dict fields. -/
def fieldsDictDecimalFree : List (String × PValue) → Bool
  | [] => true
  | (_, v) :: rest => dictDecimalFree v && fieldsDictDecimalFree rest

end

mutual

/-- Numeric-kind erasure: maps every `Decimal` to the `float` with the same
payload and leaves everything else intact, recursing through all structure.
Two values have the same keys and shape up to decimal-versus-float exactly
when their erasures are equal. -/
def stripNums : PValue → PValue
  | .pdecimal v => .pfloat v
  | .pdict fields => .pdict (stripNumsFields fields)
  | .plist elems => .plist (stripNumsElems elems)
  | v => v

/-- `stripNums` over dict fields. -/
def stripNumsFields : List (String × PValue) → List (String × PValue)
  | [] => []
  | (k, v) :: rest => (k, stripNums v) :: stripNumsFields rest

/-- `stripNums` over list elements. -/
def stripNumsElems : List PValue → List PValue
  | [] => []
  | v :: rest => stripNums v :: stripNumsElems rest

end

/-- A PostgreSQL source table: its rows in catalog order. -/
structure PgTable where
  rows : List Row

/-- `PostgresToMongoTranslator._get_postgresql_row_count`
(`postgres_to_mongo_translator.py`, lines 46-49): `SELECT COUNT(*)`. -/
def get_postgresql_row_count (t : PgTable) : Nat := t.rows.length

/-- `PostgresToMongoTranslator._fetch_postgresql_batch`
(`postgres_to_mongo_translator.py`, lines 40-44):
`SELECT * FROM t OFFSET offset LIMIT batch_size`. -/
def fetch_postgresql_batch (t : PgTable) (offset batch_size : Nat) : List Row :=
  (t.rows.drop offset).take batch_size

/-- Observable events of one table transfer: the single row-count query, each
page fetch with its offset, and each successful batch insert with the
documents it wrote. -/
inductive TransferEv where
  | countRead (total : Nat)
  | fetch (offset : Nat)
  | insertOk (docs : List Row)

/-- The offsets of the fetch events of a trace, in order. -/
def fetchOffsets (evs : List TransferEv) : List Nat :=
  evs.filterMap (fun e => match e with | .fetch o => some o | _ => none)

/-- The number of row-count queries in a trace. -/
def countReads (evs : List TransferEv) : Nat :=
  (evs.filter (fun e => match e with | .countRead _ => true | _ => false)).length

/-- The `while offset < total_rows` loop of
`PostgresToMongoTranslator.transfer_table_data`
(`postgres_to_mongo_translator.py`, lines 73-94), one constructor case per
iteration.  `insertErr k` is the exception (if any) raised by the `k`-th
`create_many` call; a raised `MongoDBCrudError` is logged and re-raised,
aborting the loop with the documents of earlier batches still inserted.
`fuel` bounds the number of iterations; `transfer_table_data` below supplies
enough for the loop to run to completion.  Returns the event trace, the
documents accumulated in the target collection, and the outcome. -/
def transferLoop (t : PgTable) (batch_size : Nat) (insertErr : Nat → Option PyErr)
    (total : Nat) :
    Nat → Nat → Nat → List TransferEv × List Row × Except PyErr Unit
  | 0, _, _ => ([], [], .ok ())
  | fuel + 1, offset, batchIdx =>
    if offset < total then
      if (fetch_postgresql_batch t offset batch_size).isEmpty then
        ([.fetch offset], [], .ok ())
      else
        match insertErr batchIdx with
        | some e => ([.fetch offset], [], .error e)
        | none =>
          (.fetch offset ::
            .insertOk ((fetch_postgresql_batch t offset batch_size).map
              convert_decimals_to_float) ::
            (transferLoop t batch_size insertErr total fuel
              (offset + batch_size) (batchIdx + 1)).1,
           (fetch_postgresql_batch t offset batch_size).map
              convert_decimals_to_float ++
            (transferLoop t batch_size insertErr total fuel
              (offset + batch_size) (batchIdx + 1)).2.1,
           (transferLoop t batch_size insertErr total fuel
              (offset + batch_size) (batchIdx + 1)).2.2)
    else ([], [], .ok ())

/-- `PostgresToMongoTranslator.transfer_table_data`
(`postgres_to_mongo_translator.py`, lines 60-94): reads the total row count
once, then runs the paging loop from offset 0.  `total + 1` iterations always
suffice: each iteration that continues advances `offset` by `batch_size ≥ 1`,
and a `batch_size` of 0 fetches an empty page and breaks immediately. -/
def transfer_table_data (t : PgTable) (batch_size : Nat)
    (insertErr : Nat → Option PyErr) :
    List TransferEv × List Row × Except PyErr Unit :=
  (.countRead (get_postgresql_row_count t) ::
    (transferLoop t batch_size insertErr (get_postgresql_row_count t)
      (get_postgresql_row_count t + 1) 0 0).1,
   (transferLoop t batch_size insertErr (get_postgresql_row_count t)
      (get_postgresql_row_count t + 1) 0 0).2.1,
   (transferLoop t batch_size insertErr (get_postgresql_row_count t)
      (get_postgresql_row_count t + 1) 0 0).2.2)

mutual

/-- Structural equality of Python values (used for MongoDB's modified-count:
a `$set` that writes the already-stored values modifies nothing). -/
def pvalueBeq : PValue → PValue → Bool
  | .pdecimal a, .pdecimal b => a == b
  | .pfloat a, .pfloat b => a == b
  | .pint a, .pint b => a == b
  | .pstr a, .pstr b => a == b
  | .pbool a, .pbool b => a == b
  | .pnone, .pnone => true
  | .pdict a, .pdict b => fieldsBeq a b
  | .plist a, .plist b => elemsBeq a b
  | _, _ => false

/-- `pvalueBeq` over dict fields. -/
def fieldsBeq : List (String × PValue) → List (String × PValue) → Bool
  | [], [] => true
  | (k, v) :: r, (k2, v2) :: r2 => k == k2 && pvalueBeq v v2 && fieldsBeq r r2
  | _, _ => false

/-- `pvalueBeq` over list elements. -/
def elemsBeq : List PValue → List PValue → Bool
  | [], [] => true
  | v :: r, v2 :: r2 => pvalueBeq v v2 && elemsBeq r r2
  | _, _ => false

end

/-- A stored document of the `users` collection, as a field dictionary. -/
abbrev MongoDoc := List (String × PValue)

/-- Python `d[k]` / `k in d` on a dict: the first binding of `k`. -/
def lookupKey (k : String) : MongoDoc → Option PValue
  | [] => none
  | (k2, v) :: rest => if k2 = k then some v else lookupKey k rest

/-- Python `del d[k]` / `d.pop(k)`: every binding of `k` removed (a dict holds
at most one). -/
def delKey (k : String) (d : MongoDoc) : MongoDoc :=
  d.filter (fun kv => kv.1 ≠ k)

/-- Python `d[k] = v`: overwrite the binding in place when present, append it
otherwise. -/
def setKey (k : String) (v : PValue) (d : MongoDoc) : MongoDoc :=
  if (lookupKey k d).isSome then
    d.map (fun kv => if kv.1 = k then (k, v) else kv)
  else d ++ [(k, v)]

/-- `str(value)` of a payload value, as far as error messages need it. -/
def pvalueStrOf : PValue → String
  | .pstr s => s
  | _ => "<value>"

/-- Whether a candidate `role` payload value passes
`update_data["role"] not in User.ROLE_PERMISSIONS`: only a string that is a
key of the table does (a non-string value is never a key of the dict). -/
def roleValueOk : PValue → Bool
  | .pstr r => (roleLookup r).isSome
  | _ => false

/-- `if "username" in update_data: del update_data["username"]`
(`mongodb_user_manager.py`, lines 161-163). -/
def prepare_update_step1 (update_data : MongoDoc) : MongoDoc :=
  if (lookupKey "username" update_data).isSome then
    delKey "username" update_data
  else update_data

/-- `if "password" in update_data: update_data["hashed_password"] =
User.hash_password(update_data.pop("password"))` (`mongodb_user_manager.py`,
lines 165-167); `bcrypt` raises `TypeError` when the popped value is not a
string. -/
def prepare_update_step2 (hashF : String → String) (d1 : MongoDoc) :
    Except PyErr MongoDoc :=
  match lookupKey "password" d1 with
  | none => .ok d1
  | some (.pstr p) =>
    .ok (setKey "hashed_password" (.pstr (hashF p)) (delKey "password" d1))
  | some _ => .error (.typeError "Unicode-objects must be encoded before hashing")

/-- `if "role" in update_data and update_data["role"] not in
User.ROLE_PERMISSIONS: raise ValueError` (`mongodb_user_manager.py`, lines
169-171). -/
def prepare_update_step3 (d2 : MongoDoc) : Except PyErr MongoDoc :=
  match lookupKey "role" d2 with
  | none => .ok d2
  | some v =>
    if roleValueOk v then .ok d2
    else .error (.valueError ("Invalid role: " ++ pvalueStrOf v))

/-- The payload transformations of `MongoDBUserManager.update_user`
(`mongodb_user_manager.py`, lines 160-171), steps in source order.  Returns
the document passed to the store inside `{"$set": ...}`. -/
def prepare_update (hashF : String → String) (update_data : MongoDoc) :
    Except PyErr MongoDoc :=
  match prepare_update_step2 hashF (prepare_update_step1 update_data) with
  | .error e => .error e
  | .ok d2 => prepare_update_step3 d2

/-- Application of a `$set` document to a stored document, one field
assignment at a time. -/
def applySet (setDoc : MongoDoc) (doc : MongoDoc) : MongoDoc :=
  setDoc.foldl (fun d kv => setKey kv.1 kv.2 d) doc

/-- Whether a stored document matches the equality filter `{"username": u}`. -/
def usernameMatches (doc : MongoDoc) (u : String) : Bool :=
  match lookupKey "username" doc with
  | some (.pstr s) => s == u
  | _ => false

/-- `collection.update_one({"username": u}, {"$set": setDoc}, upsert=False)`
restricted to the match-and-set part: rewrites the first document whose
`username` field equals `u` and reports `(new store, matched, modified)`. -/
def update_one_set : List MongoDoc → String → MongoDoc → List MongoDoc × Bool × Bool
  | [], _, _ => ([], false, false)
  | doc :: rest, u, setDoc =>
    if usernameMatches doc u then
      let doc2 := applySet setDoc doc
      (doc2 :: rest, true, !fieldsBeq doc2 doc)
    else
      let r := update_one_set rest u setDoc
      (doc :: r.1, r.2.1, r.2.2)

/-- `MongoDBUserManager.update_user` (`mongodb_user_manager.py`, lines
143-188): prepare the payload, then issue the `$set`; with `upsert` and no
matching document the store creates a new document from the equality filter
plus the `$set` fields.  Returns the new store contents and the method's
success flag (`modified_count > 0 or (upsert and result.upserted_id)`). -/
def MongoDBUserManager.update_user (hashF : String → String)
    (store : List MongoDoc) (username : String) (update_data : MongoDoc)
    (upsert : Bool) : Except PyErr (List MongoDoc × Bool) :=
  match prepare_update hashF update_data with
  | .error e => .error e
  | .ok setDoc =>
    if !(update_one_set store username setDoc).2.1 ∧ upsert then
      .ok ((update_one_set store username setDoc).1 ++
        [applySet setDoc [("username", .pstr username)]], true)
    else
      .ok ((update_one_set store username setDoc).1,
           (update_one_set store username setDoc).2.2)

/-- An authentication-enabled config (credentials supplied, `enable_auth`
left at its default `true`), used when exercising the connection claims. -/
def cfgC1 : MongoDBConfig :=
  { host := "localhost", port := 27017, database := "d",
    user := some "root", password := some "rootpw" }

/-- A row whose only `Decimal` sits inside a list value. -/
def rowC8 : Row := [("readings", .plist [.pdecimal 5])]

/-! ## Theorems -/

/-- C6: the claim is false as stated — with every unspecified field at its
declared default, the generated connection string additionally carries the
`appName`, `readPreference`, `retryWrites` and `retryReads` query
parameters, so it is not exactly `mongodb://localhost:27017/d`. -/
theorem C6_counterexample :
    cfgC6.get_connection_string ≠ "mongodb://localhost:27017/d" := by
  decide

/-- C6 (amended): connecting with
`{host: "localhost", port: 27017, database: "d", enable_auth: false}` yields
`mongodb://localhost:27017/d?appName=MongoDBManager&readPreference=primary&retryWrites=true&retryReads=true`:
the default query parameters are present, but there is no `user:password`
credential segment (no `@` occurs at all) and no `authSource` parameter. -/
theorem C6_connection_string :
    cfgC6.get_connection_string =
      "mongodb://localhost:27017/d?appName=MongoDBManager&readPreference=primary&retryWrites=true&retryReads=true"
    ∧ strHasChar cfgC6.get_connection_string '@' = false
    ∧ strHasSub cfgC6.get_connection_string "authSource" = false := by
  refine ⟨by decide, by decide, by decide⟩

/-- C1: the claim is false as stated — when the liveness verification of an
authentication-enabled config fails with an authorization error
(`OperationFailure`, code 13), `verify_connection` propagates that error
unchanged instead of disabling authentication on its config copy and
reconnecting unauthenticated. -/
theorem C1_counterexample :
    cfgC1.enable_auth = true
    ∧ isAuthError (PyErr.operationFailure 13 "not authorized on admin") = true
    ∧ MongoDBManager.verify_connection cfgC1
        { pingErr := some (PyErr.operationFailure 13 "not authorized on admin") }
      = .error (PyErr.operationFailure 13 "not authorized on admin") :=
  ⟨rfl, rfl, rfl⟩

/-- C1 (amended): for every config, every failure of the initial liveness
verification — authorization errors included — aborts the connection attempt
and propagates unchanged, and on success the manager's config copy is
returned unmodified; authentication is never disabled and no unauthenticated
retry is made. -/
theorem C1_verify_connection_propagates (cfg : MongoDBConfig) (env : ConnEnv) :
    (∀ e, env.initErr = some e →
      MongoDBManager.verify_connection cfg env = .error e)
    ∧ (env.initErr = none → ∀ e, env.pingErr = some e →
      MongoDBManager.verify_connection cfg env = .error e)
    ∧ (env.initErr = none → env.pingErr = none →
      MongoDBManager.verify_connection cfg env = .ok (cfg, true)) := by
  unfold MongoDBManager.verify_connection
  refine ⟨fun e he => ?_, fun hi e he => ?_, fun hi hp => ?_⟩ <;> simp_all

theorem C1_verify_connection_propagates_witness :
    MongoDBManager.verify_connection cfgC1
        { pingErr := some PyErr.connectionFailure }
      = .error PyErr.connectionFailure
    ∧ MongoDBManager.verify_connection cfgC1
        { initErr := some PyErr.serverSelectionTimeout }
      = .error PyErr.serverSelectionTimeout
    ∧ MongoDBManager.verify_connection cfgC1 {} = .ok (cfgC1, true) :=
  ⟨(C1_verify_connection_propagates cfgC1
      { pingErr := some PyErr.connectionFailure }).2.1 rfl
      PyErr.connectionFailure rfl,
   (C1_verify_connection_propagates cfgC1
      { initErr := some PyErr.serverSelectionTimeout }).1
      PyErr.serverSelectionTimeout rfl,
   (C1_verify_connection_propagates cfgC1 {}).2.2 rfl rfl⟩

/-- C10: `MongoCRUD.__init__` — inherited by every CRUD operations class,
including the `MongoCreateOperations` the migration pipeline builds over the
manager — reads `RETRYABLE_ERRORS` from the manager, an attribute
`MongoDBManager` never defines, so construction raises `AttributeError`
before any data operation can be issued. -/
theorem C10_crud_init_attribute_error :
    mongoDBManagerAttrs.contains "RETRYABLE_ERRORS" = false
    ∧ MongoCRUD.init = .error (.attributeError "RETRYABLE_ERRORS") :=
  ⟨by decide, rfl⟩

/-- C2: with the underlying collection method raising a retryable
`PyMongoError` (a network timeout) on every call, `_execute_operation` makes
exactly one attempt and the caller sees the wrapping `MongoDBCrudError`:
the body converts the retryable error into a non-`PyMongoError` before the
`max_tries=3` backoff decorator can see it, so no retry and no
retries-exhausted error ever happens. -/
theorem C2_single_attempt :
    MongoCRUD.execute_operation
        (fun _ => (Except.error PyErr.networkTimeout : Except PyErr Unit))
        "insert_many" "users"
      = (.error (.crudError
          "Failed to execute operation 'insert_many' on collection 'users': NetworkTimeout"), 1)
    ∧ isPyMongoError PyErr.networkTimeout = true
    ∧ isPyMongoError (PyErr.crudError
        "Failed to execute operation 'insert_many' on collection 'users': NetworkTimeout") = false :=
  ⟨rfl, rfl, rfl⟩

/-- C4: `authenticate_user` is total — every store failure is caught and maps
to `false` — and it returns `true` exactly when the lookup raised nothing,
the username resolves to an account, that account is active, and the supplied
secret checks against the stored hash; in every other situation (unknown
username, inactive account, mismatched secret, store failure) it returns
`false`. -/
theorem C4_authenticate_never_throws (env : AuthEnv) (store : UserStore)
    (username password : String) :
    MongoDBUserManager.authenticate_user env store username password = true ↔
      env.findErr = none ∧
      ∃ user, store.find? (fun u => u.username == username) = some user ∧
        user.active = true ∧ env.checkpw password user.hashed_password = true := by
  unfold MongoDBUserManager.authenticate_user MongoDBUserManager.get_user
  cases h : env.findErr with
  | some e => simp
  | none =>
    cases hf : store.find? (fun u => u.username == username) with
    | none => simp
    | some user =>
      by_cases ha : user.active <;> simp [ha]

theorem User.make_username (username email role hp : String) (active : Bool)
    (md : List (String × String)) (user : User)
    (h : User.make username email role hp active md = .ok user) :
    user.username = username := by
  unfold User.make at h
  split at h
  · exact absurd h (by simp)
  · split at h
    · exact absurd h (by simp)
    · split at h
      · exact absurd h (by simp)
      · cases h
        rfl

theorem user_exists_append_self (store : UserStore) (u : User) (name : String)
    (hu : u.username = name) :
    MongoDBUserManager.user_exists (store ++ [u]) name = true := by
  unfold MongoDBUserManager.user_exists
  simp [List.filter_append, hu]

/-- C5: `create_user` is not idempotent — once a create for a username has
succeeded, any further create with that username fails with the
"already exists" `ValueError` regardless of every other field of the payload —
and `create_user` also fails whenever the supplied role is not a key of the
fixed `ROLE_PERMISSIONS` table. -/
theorem C5_create_not_idempotent :
    (∀ (hashF : String → String) (store : UserStore) (u e r p : String)
        (m : List (String × String)) (a : Bool) (store2 : UserStore) (usr : User),
      MongoDBUserManager.create_user hashF store u e r p m a = .ok (store2, usr) →
      ∀ (hashF2 : String → String) (e2 r2 p2 : String)
          (m2 : List (String × String)) (a2 : Bool),
        MongoDBUserManager.create_user hashF2 store2 u e2 r2 p2 m2 a2 =
          .error (.valueError ("User with username '" ++ u ++ "' already exists")))
    ∧ (∀ (hashF : String → String) (store : UserStore) (u e r p : String)
        (m : List (String × String)) (a : Bool),
      roleLookup r = none →
      ∃ err, MongoDBUserManager.create_user hashF store u e r p m a = .error err) := by
  constructor
  · intro hashF store u e r p m a store2 usr hok hashF2 e2 r2 p2 m2 a2
    unfold MongoDBUserManager.create_user at hok
    split at hok
    · exact absurd hok (by simp)
    · cases hmk : User.make u e r (hashF p) a m with
      | error err => rw [hmk] at hok; exact absurd hok (by simp)
      | ok user =>
        rw [hmk] at hok
        rw [Except.ok.injEq, Prod.mk.injEq] at hok
        obtain ⟨hs2, husr⟩ := hok
        subst hs2
        have hu : user.username = u := User.make_username u e r (hashF p) a m user hmk
        unfold MongoDBUserManager.create_user
        rw [user_exists_append_self store user u hu]
        simp
  · intro hashF store u e r p m a hrole
    unfold MongoDBUserManager.create_user
    split
    · exact ⟨_, rfl⟩
    · cases hmk : User.make u e r (hashF p) a m with
      | error err => exact ⟨_, rfl⟩
      | ok user =>
        exfalso
        unfold User.make at hmk
        rw [hrole] at hmk
        split at hmk <;> (try split at hmk) <;> simp at hmk

theorem C5_create_not_idempotent_witness :
    MongoDBUserManager.create_user (fun s => s)
        [{ username := "bob", email := "bob@x", role := "admin",
           hashed_password := "pw", permissions := ["readWrite", "userAdmin"] }]
        "bob" "other@x" "viewer" "pw2" [] false
      = .error (.valueError "User with username 'bob' already exists")
    ∧ ∃ err, MongoDBUserManager.create_user (fun s => s) [] "carol" "c@x" "ghost"
        "pw" [] true = .error err :=
  ⟨C5_create_not_idempotent.1 (fun s => s) [] "bob" "bob@x" "admin" "pw" [] true
      _ _ rfl (fun s => s) "other@x" "viewer" "pw2" [] false,
   C5_create_not_idempotent.2 (fun s => s) [] "carol" "c@x" "ghost" "pw" [] true rfl⟩

theorem updateUserCmd_user_eq (x : MongoAuthUser) (u : String) (r : List MongoRole) :
    ((if x.user == u then { x with roles := r } else x) : MongoAuthUser).user = x.user := by
  split <;> rfl

theorem usersInfoCmd_updateUserCmd_length (db : AuthDB) (u : String) (r : List MongoRole) :
    (usersInfoCmd (updateUserCmd db u r) u).length = (usersInfoCmd db u).length := by
  unfold usersInfoCmd updateUserCmd
  rw [List.filter_map, List.length_map]
  congr 1
  apply List.filter_congr
  intro x hx
  exact congrArg (fun s => s == u) (updateUserCmd_user_eq x u r)

theorem user_exists_updateUserCmd (db : AuthDB) (u : String) (r : List MongoRole) :
    MongoDBUserAdmin.user_exists (updateUserCmd db u r) u =
      MongoDBUserAdmin.user_exists db u := by
  unfold MongoDBUserAdmin.user_exists
  rw [usersInfoCmd_updateUserCmd_length]

theorem updateUserCmd_idem (db : AuthDB) (u : String) (r : List MongoRole) :
    updateUserCmd (updateUserCmd db u r) u r = updateUserCmd db u r := by
  unfold updateUserCmd
  rw [List.map_map]
  apply List.map_congr_left
  intro x hx
  by_cases hxu : x.user == u <;> simp [Function.comp, hxu]

theorem updateUserCmd_noop (db : AuthDB) (u : String) (r : List MongoRole)
    (h : ∀ x ∈ db, x.user = u → x.roles = r) :
    updateUserCmd db u r = db := by
  unfold updateUserCmd
  induction db with
  | nil => rfl
  | cons x xs ih =>
    simp only [List.map_cons]
    congr 1
    · by_cases hx : x.user == u
      · have hroles := h x (by simp) (by simpa using hx)
        rw [if_pos hx, ← hroles]
      · rw [if_neg hx]
    · exact ih (fun y hy hyu => h y (by simp [hy]) hyu)

theorem user_exists_false_mem (db : AuthDB) (u : String)
    (h : MongoDBUserAdmin.user_exists db u = false) :
    ∀ x ∈ db, x.user ≠ u := by
  unfold MongoDBUserAdmin.user_exists at h
  rw [decide_eq_false_iff_not, Nat.not_lt, Nat.le_zero, List.length_eq_zero] at h
  intro x hx hxu
  have hmem : x ∈ usersInfoCmd db u := by
    unfold usersInfoCmd
    exact List.mem_filter.mpr ⟨hx, by simp [hxu]⟩
  rw [h] at hmem
  exact absurd hmem (List.not_mem_nil x)

theorem auth_user_exists_append (db : AuthDB) (x : MongoAuthUser) (u : String)
    (hx : x.user = u) :
    MongoDBUserAdmin.user_exists (db ++ [x]) u = true := by
  unfold MongoDBUserAdmin.user_exists usersInfoCmd
  simp [List.filter_append, hx]

theorem usersInfoCmd_updateUserCmd_roles (db : AuthDB) (u : String) (r : List MongoRole) :
    ∀ x ∈ usersInfoCmd (updateUserCmd db u r) u, x.roles = r := by
  intro x hx
  unfold usersInfoCmd updateUserCmd at hx
  rw [List.mem_filter] at hx
  obtain ⟨hmem, hpred⟩ := hx
  rw [List.mem_map] at hmem
  obtain ⟨y, hy, hxy⟩ := hmem
  by_cases hyu : y.user == u
  · rw [← hxy]
    simp [hyu]
  · rw [← hxy] at hpred
    rw [updateUserCmd_user_eq] at hpred
    exact absurd hpred (by simp_all)

theorem usersInfoCmd_eq_nil (db : AuthDB) (u : String)
    (h : MongoDBUserAdmin.user_exists db u = false) :
    usersInfoCmd db u = [] := by
  unfold MongoDBUserAdmin.user_exists at h
  rw [decide_eq_false_iff_not, Nat.not_lt, Nat.le_zero, List.length_eq_zero] at h
  exact h

/-- C3: `manage_user` with action `ensure_exists` is idempotent — for every
prior server state, principal name, non-empty role list and truthy secret,
the first call succeeds, a second call with the same role list succeeds
without error and leaves the server state exactly as after the first call,
and that state has the principal present with exactly the supplied roles. -/
theorem C3_ensure_exists_idempotent (db : AuthDB) (u : String) (p : Option String)
    (r : List MongoRole) (hr : r ≠ []) (hp : optStrTruthy p = true) :
    ∃ db2 res1 res2,
      MongoDBUserAdmin.manage_user db u p r "ensure_exists" = .ok (db2, res1)
      ∧ MongoDBUserAdmin.manage_user db2 u p r "ensure_exists" = .ok (db2, res2)
      ∧ MongoDBUserAdmin.user_exists db2 u = true
      ∧ ∀ x ∈ usersInfoCmd db2 u, x.roles = r := by
  cases hex : MongoDBUserAdmin.user_exists db u with
  | true =>
    refine ⟨updateUserCmd db u r, { success := true, updated := true },
            { success := true, updated := true }, ?_, ?_, ?_, ?_⟩
    · unfold MongoDBUserAdmin.manage_user
      simp +decide [hex, hr]
    · unfold MongoDBUserAdmin.manage_user
      simp +decide [user_exists_updateUserCmd, hex, hr, updateUserCmd_idem]
    · rw [user_exists_updateUserCmd, hex]
    · exact usersInfoCmd_updateUserCmd_roles db u r
  | false =>
    have hex2 : MongoDBUserAdmin.user_exists
        (createUserCmd db u (p.getD "") r) u = true :=
      auth_user_exists_append db ⟨u, p.getD "", r⟩ u rfl
    have hnoop : updateUserCmd (createUserCmd db u (p.getD "") r) u r =
        createUserCmd db u (p.getD "") r := by
      apply updateUserCmd_noop
      intro x hx hxu
      unfold createUserCmd at hx
      rcases List.mem_append.mp hx with hxdb | hxnew
      · exact absurd hxu (user_exists_false_mem db u hex x hxdb)
      · rw [List.mem_singleton.mp hxnew]
    refine ⟨createUserCmd db u (p.getD "") r, { success := true, created := true },
            { success := true, updated := true }, ?_, ?_, hex2, ?_⟩
    · unfold MongoDBUserAdmin.manage_user
      simp +decide [hex, hr, hp]
    · unfold MongoDBUserAdmin.manage_user
      simp +decide [hex2, hr, hnoop]
    · intro x hx
      unfold createUserCmd usersInfoCmd at hx
      have hnil : List.filter (fun v => v.user == u) db = [] :=
        usersInfoCmd_eq_nil db u hex
      rw [List.filter_append, hnil] at hx
      simp at hx
      rw [hx]

theorem C3_ensure_exists_idempotent_witness :
    ∃ db2 res1 res2,
      MongoDBUserAdmin.manage_user [] "svc" (some "pw")
          [⟨"readWrite", "admin"⟩] "ensure_exists" = .ok (db2, res1)
      ∧ MongoDBUserAdmin.manage_user db2 "svc" (some "pw")
          [⟨"readWrite", "admin"⟩] "ensure_exists" = .ok (db2, res2)
      ∧ MongoDBUserAdmin.user_exists db2 "svc" = true
      ∧ ∀ x ∈ usersInfoCmd db2 "svc", x.roles = [⟨"readWrite", "admin"⟩] :=
  C3_ensure_exists_idempotent [] "svc" (some "pw") [⟨"readWrite", "admin"⟩]
    (by decide) (by decide)

/-- C8: the claim is false as stated — the converter recurses through nested
dictionaries only, so a `Decimal` sitting inside a list value survives
conversion: the converted row is identical to the input and still contains a
decimal. -/
theorem C8_counterexample :
    convert_decimals_to_float rowC8 = rowC8
    ∧ fieldsHaveDecimal (convert_decimals_to_float rowC8) = true :=
  ⟨rfl, rfl⟩

mutual

theorem stripNums_convertEntryValue :
    ∀ v, stripNums (convertEntryValue v) = stripNums v
  | .pdecimal v => rfl
  | .pfloat v => rfl
  | .pint n => rfl
  | .pstr s => rfl
  | .pbool b => rfl
  | .pnone => rfl
  | .pdict fields => congrArg PValue.pdict (stripNumsFields_convert fields)
  | .plist elems => rfl

theorem stripNumsFields_convert :
    ∀ fs, stripNumsFields (convert_decimals_to_float fs) = stripNumsFields fs
  | [] => rfl
  | (k, v) :: rest => by
      show (k, stripNums (convertEntryValue v)) :: stripNumsFields (convert_decimals_to_float rest)
        = (k, stripNums v) :: stripNumsFields rest
      rw [stripNums_convertEntryValue v, stripNumsFields_convert rest]

end

mutual

theorem dictDecimalFree_convertEntryValue :
    ∀ v, dictDecimalFree (convertEntryValue v) = true
  | .pdecimal v => rfl
  | .pfloat v => rfl
  | .pint n => rfl
  | .pstr s => rfl
  | .pbool b => rfl
  | .pnone => rfl
  | .pdict fields => fieldsDictDecimalFree_convert fields
  | .plist elems => rfl

theorem fieldsDictDecimalFree_convert :
    ∀ fs, fieldsDictDecimalFree (convert_decimals_to_float fs) = true
  | [] => rfl
  | (k, v) :: rest => by
      show (dictDecimalFree (convertEntryValue v)
        && fieldsDictDecimalFree (convert_decimals_to_float rest)) = true
      rw [dictDecimalFree_convertEntryValue v, fieldsDictDecimalFree_convert rest]
      rfl

end

theorem convert_decimals_to_float_keys :
    ∀ fs : List (String × PValue),
      (convert_decimals_to_float fs).map Prod.fst = fs.map Prod.fst
  | [] => rfl
  | (k, v) :: rest => by
      show k :: (convert_decimals_to_float rest).map Prod.fst = k :: rest.map Prod.fst
      rw [convert_decimals_to_float_keys rest]

/-- C8 (amended): per-row conversion keeps the key list of every row, leaves
every non-decimal non-dict value — lists in particular — untouched, converts
every decimal reachable through nested dictionaries into the float with the
same payload, and changes nothing else: up to the decimal-to-float renaming
(`stripNums`) the converted row is the input row.  Decimals nested inside
lists are outside its reach (see the counterexample). -/
theorem C8_convert_decimals :
    (∀ fs : List (String × PValue),
      (convert_decimals_to_float fs).map Prod.fst = fs.map Prod.fst)
    ∧ (∀ v, convertEntryValue (.pdecimal v) = .pfloat v)
    ∧ (∀ es, convertEntryValue (.plist es) = .plist es)
    ∧ (∀ n, convertEntryValue (.pint n) = .pint n)
    ∧ (∀ s, convertEntryValue (.pstr s) = .pstr s)
    ∧ (∀ b, convertEntryValue (.pbool b) = .pbool b)
    ∧ convertEntryValue .pnone = .pnone
    ∧ (∀ v, convertEntryValue (.pfloat v) = .pfloat v)
    ∧ (∀ v, dictDecimalFree (convertEntryValue v) = true)
    ∧ (∀ fs, fieldsDictDecimalFree (convert_decimals_to_float fs) = true)
    ∧ (∀ v, stripNums (convertEntryValue v) = stripNums v)
    ∧ (∀ fs, stripNumsFields (convert_decimals_to_float fs) = stripNumsFields fs) :=
  ⟨convert_decimals_to_float_keys, fun v => rfl, fun es => rfl, fun n => rfl,
   fun s => rfl, fun b => rfl, rfl, fun v => rfl,
   dictDecimalFree_convertEntryValue, fieldsDictDecimalFree_convert,
   stripNums_convertEntryValue, stripNumsFields_convert⟩

theorem lookupKey_cons (k k2 : String) (v : PValue) (d : MongoDoc) :
    lookupKey k ((k2, v) :: d) = if k2 = k then some v else lookupKey k d := rfl

theorem lookupKey_delKey_self (k : String) (d : MongoDoc) :
    lookupKey k (delKey k d) = none := by
  induction d with
  | nil => rfl
  | cons kv rest ih =>
    obtain ⟨k2, v⟩ := kv
    unfold delKey at ih ⊢
    rw [List.filter_cons]
    by_cases h2 : k2 = k
    · rw [if_neg (by simp [h2])]
      exact ih
    · rw [if_pos (by simp [h2]), lookupKey_cons, if_neg h2]
      exact ih

theorem lookupKey_delKey_ne (k k2 : String) (d : MongoDoc) (h : k ≠ k2) :
    lookupKey k (delKey k2 d) = lookupKey k d := by
  induction d with
  | nil => rfl
  | cons kv rest ih =>
    obtain ⟨k3, v⟩ := kv
    unfold delKey at ih ⊢
    rw [List.filter_cons]
    by_cases h3 : k3 = k2
    · rw [if_neg (by simp [h3]), lookupKey_cons, if_neg (by rw [h3]; exact fun he => h he.symm)]
      exact ih
    · rw [if_pos (by simp [h3]), lookupKey_cons, lookupKey_cons]
      by_cases h4 : k3 = k
      · rw [if_pos h4, if_pos h4]
      · rw [if_neg h4, if_neg h4]
        exact ih

theorem lookupKey_append (k : String) (d1 d2 : MongoDoc) :
    lookupKey k (d1 ++ d2) =
      match lookupKey k d1 with
      | some v => some v
      | none => lookupKey k d2 := by
  induction d1 with
  | nil => rfl
  | cons kv rest ih =>
    obtain ⟨k3, v3⟩ := kv
    rw [List.cons_append, lookupKey_cons, lookupKey_cons]
    by_cases h3 : k3 = k
    · rw [if_pos h3, if_pos h3]
    · rw [if_neg h3, if_neg h3, ih]

theorem lookupKey_eq_none_of_not_mem (k : String) (d : MongoDoc)
    (h : k ∉ d.map Prod.fst) : lookupKey k d = none := by
  induction d with
  | nil => rfl
  | cons kv rest ih =>
    obtain ⟨k2, v⟩ := kv
    rw [lookupKey_cons, if_neg (fun he => h (by simp [he]))]
    exact ih (fun hm => h (by simp; right; simpa using hm))

theorem lookupKey_map_overwrite (k : String) (v : PValue) (d : MongoDoc) :
    lookupKey k (d.map (fun kv => if kv.1 = k then (k, v) else kv)) =
      (lookupKey k d).map (fun _ => v) := by
  induction d with
  | nil => rfl
  | cons kv rest ih =>
    obtain ⟨k2, v2⟩ := kv
    rw [List.map_cons]
    by_cases h2 : k2 = k
    · rw [if_pos h2, lookupKey_cons, lookupKey_cons, if_pos rfl, if_pos h2]
      rfl
    · rw [if_neg h2, lookupKey_cons, lookupKey_cons, if_neg h2, if_neg h2, ih]

theorem lookupKey_map_overwrite_ne (k k2 : String) (v : PValue) (d : MongoDoc)
    (h : k ≠ k2) :
    lookupKey k (d.map (fun kv => if kv.1 = k2 then (k2, v) else kv)) =
      lookupKey k d := by
  induction d with
  | nil => rfl
  | cons kv rest ih =>
    obtain ⟨k3, v3⟩ := kv
    rw [List.map_cons]
    by_cases h3 : k3 = k2
    · rw [if_pos h3, lookupKey_cons, lookupKey_cons,
          if_neg (fun he => h he.symm), if_neg (by rw [h3]; exact fun he => h he.symm)]
      exact ih
    · rw [if_neg h3, lookupKey_cons, lookupKey_cons]
      by_cases h4 : k3 = k
      · rw [if_pos h4, if_pos h4]
      · rw [if_neg h4, if_neg h4]
        exact ih

theorem lookupKey_setKey_self (k : String) (v : PValue) (d : MongoDoc) :
    lookupKey k (setKey k v d) = some v := by
  unfold setKey
  by_cases hs : (lookupKey k d).isSome
  · rw [if_pos hs, lookupKey_map_overwrite]
    rw [Option.isSome_iff_exists] at hs
    obtain ⟨w, hw⟩ := hs
    rw [hw]
    rfl
  · rw [if_neg hs, lookupKey_append]
    cases hk : lookupKey k d with
    | some w => exact absurd (by rw [hk]; rfl) hs
    | none =>
      show lookupKey k [(k, v)] = some v
      rw [lookupKey_cons, if_pos rfl]

theorem lookupKey_setKey_ne (k k2 : String) (v : PValue) (d : MongoDoc)
    (h : k ≠ k2) :
    lookupKey k (setKey k2 v d) = lookupKey k d := by
  unfold setKey
  by_cases hs : (lookupKey k2 d).isSome
  · rw [if_pos hs]
    exact lookupKey_map_overwrite_ne k k2 v d h
  · rw [if_neg hs, lookupKey_append]
    cases hk : lookupKey k d with
    | some w => rfl
    | none =>
      show lookupKey k [(k2, v)] = none
      rw [lookupKey_cons, if_neg (fun he => h he.symm)]
      rfl

theorem applySet_cons (k : String) (v : PValue) (sd doc : MongoDoc) :
    applySet ((k, v) :: sd) doc = applySet sd (setKey k v doc) := rfl

theorem lookupKey_applySet_none (sd : MongoDoc) (k : String)
    (h : lookupKey k sd = none) :
    ∀ doc, lookupKey k (applySet sd doc) = lookupKey k doc := by
  induction sd with
  | nil => intro doc; rfl
  | cons kv rest ih =>
    intro doc
    obtain ⟨k2, v2⟩ := kv
    rw [lookupKey_cons] at h
    by_cases h2 : k2 = k
    · rw [if_pos h2] at h
      exact absurd h (by simp)
    · rw [if_neg h2] at h
      rw [applySet_cons, ih h, lookupKey_setKey_ne k k2 v2 doc (fun he => h2 he.symm)]

theorem lookupKey_applySet_some (sd : MongoDoc) (k : String) (v : PValue)
    (hnd : (sd.map Prod.fst).Nodup) (h : lookupKey k sd = some v) :
    ∀ doc, lookupKey k (applySet sd doc) = some v := by
  induction sd with
  | nil =>
    intro doc
    exact absurd h (by simp [lookupKey])
  | cons kv rest ih =>
    intro doc
    obtain ⟨k2, v2⟩ := kv
    rw [List.map_cons, List.nodup_cons] at hnd
    obtain ⟨hk2, hndr⟩ := hnd
    rw [lookupKey_cons] at h
    by_cases h2 : k2 = k
    · rw [if_pos h2] at h
      injection h with hv
      subst h2
      have hnone : lookupKey k2 rest = none :=
        lookupKey_eq_none_of_not_mem k2 rest hk2
      rw [applySet_cons, lookupKey_applySet_none rest k2 hnone,
          lookupKey_setKey_self, hv]
    · rw [if_neg h2] at h
      rw [applySet_cons]
      exact ih hndr h (setKey k2 v2 doc)

theorem prepare_update_step1_username (ud : MongoDoc) :
    lookupKey "username" (prepare_update_step1 ud) = none := by
  unfold prepare_update_step1
  by_cases hs : (lookupKey "username" ud).isSome
  · rw [if_pos hs]
    exact lookupKey_delKey_self "username" ud
  · rw [if_neg hs]
    cases hk : lookupKey "username" ud with
    | some w => exact absurd (by rw [hk]; rfl) hs
    | none => rfl

theorem prepare_update_step1_other (ud : MongoDoc) (k : String)
    (h : k ≠ "username") :
    lookupKey k (prepare_update_step1 ud) = lookupKey k ud := by
  unfold prepare_update_step1
  by_cases hs : (lookupKey "username" ud).isSome
  · rw [if_pos hs]
    exact lookupKey_delKey_ne k "username" ud h
  · rw [if_neg hs]

theorem prepare_update_step2_other (hashF : String → String) (d1 sd : MongoDoc)
    (k : String) (h1 : k ≠ "password") (h2 : k ≠ "hashed_password")
    (h : prepare_update_step2 hashF d1 = .ok sd) :
    lookupKey k sd = lookupKey k d1 := by
  unfold prepare_update_step2 at h
  cases hp : lookupKey "password" d1 with
  | none =>
    rw [hp] at h
    injection h with h
    rw [← h]
  | some v =>
    rw [hp] at h
    cases v
    case pstr p =>
      injection h with h
      rw [← h, lookupKey_setKey_ne k "hashed_password" _ _ h2,
          lookupKey_delKey_ne k "password" d1 h1]
    all_goals simp at h

theorem prepare_update_step2_password (hashF : String → String) (d1 sd : MongoDoc)
    (p : String) (hp : lookupKey "password" d1 = some (.pstr p))
    (h : prepare_update_step2 hashF d1 = .ok sd) :
    lookupKey "hashed_password" sd = some (.pstr (hashF p))
    ∧ lookupKey "password" sd = none := by
  unfold prepare_update_step2 at h
  rw [hp] at h
  injection h with h
  constructor
  · rw [← h, lookupKey_setKey_self]
  · rw [← h, lookupKey_setKey_ne _ _ _ _ (by decide), lookupKey_delKey_self]

theorem prepare_update_step3_ok (d2 sd : MongoDoc)
    (h : prepare_update_step3 d2 = .ok sd) : sd = d2 := by
  unfold prepare_update_step3 at h
  cases hr : lookupKey "role" d2 with
  | none =>
    rw [hr] at h
    injection h with h
    exact h.symm
  | some v =>
    rw [hr] at h
    have h2 : (if roleValueOk v = true then (Except.ok d2 : Except PyErr MongoDoc)
        else Except.error (PyErr.valueError ("Invalid role: " ++ pvalueStrOf v)))
        = Except.ok sd := h
    by_cases hv : roleValueOk v = true
    · rw [if_pos hv] at h2
      injection h2 with h2
      exact h2.symm
    · rw [if_neg hv] at h2
      exact absurd h2 (by simp)

theorem prepare_update_ok_step2 (hashF : String → String) (ud sd : MongoDoc)
    (h : prepare_update hashF ud = .ok sd) :
    prepare_update_step2 hashF (prepare_update_step1 ud) = .ok sd := by
  unfold prepare_update at h
  cases h2 : prepare_update_step2 hashF (prepare_update_step1 ud) with
  | error e =>
    rw [h2] at h
    exact absurd h (by simp)
  | ok d2 =>
    rw [h2] at h
    rw [prepare_update_step3_ok d2 sd h]

theorem prepare_update_username (hashF : String → String) (ud sd : MongoDoc)
    (h : prepare_update hashF ud = .ok sd) :
    lookupKey "username" sd = none := by
  have h2 := prepare_update_ok_step2 hashF ud sd h
  rw [prepare_update_step2_other hashF (prepare_update_step1 ud) sd "username"
      (by decide) (by decide) h2,
    prepare_update_step1_username ud]

theorem update_one_set_usernames (store : List MongoDoc) (u : String)
    (sd : MongoDoc) (h : lookupKey "username" sd = none) :
    (update_one_set store u sd).1.map (lookupKey "username")
      = store.map (lookupKey "username") := by
  induction store with
  | nil => rfl
  | cons doc rest ih =>
    unfold update_one_set
    cases hm : usernameMatches doc u
    · rw [if_neg (by simp)]
      show (doc :: (update_one_set rest u sd).1).map (lookupKey "username")
          = (doc :: rest).map (lookupKey "username")
      rw [List.map_cons, List.map_cons, ih]
    · rw [if_pos rfl]
      show (applySet sd doc :: rest).map (lookupKey "username")
          = (doc :: rest).map (lookupKey "username")
      rw [List.map_cons, List.map_cons, lookupKey_applySet_none sd "username" h doc]

/-- C9: `update_user` never changes the stored username of any existing
document — a `username` entry in the payload is stripped before the `$set`
is issued, and an upsert can only append a new document whose username is
the filter's own; a supplied `password` is replaced by its one-way hash
stored under `hashed_password` with the plaintext dropped from the `$set`;
every other supplied field reaches the `$set` document exactly as given, and
applying a `$set` with duplicate-free keys writes exactly those values. -/
theorem C9_update_user :
    (∀ (hashF : String → String) (store : List MongoDoc) (u : String)
        (ud : MongoDoc) (up : Bool) (store2 : List MongoDoc) (b : Bool),
      MongoDBUserManager.update_user hashF store u ud up = .ok (store2, b) →
        store2.map (lookupKey "username") = store.map (lookupKey "username")
        ∨ store2.map (lookupKey "username")
            = store.map (lookupKey "username") ++ [some (.pstr u)])
    ∧ (∀ (hashF : String → String) (ud sd : MongoDoc),
        prepare_update hashF ud = .ok sd → lookupKey "username" sd = none)
    ∧ (∀ (hashF : String → String) (ud sd : MongoDoc) (p : String),
        lookupKey "password" ud = some (.pstr p) →
        prepare_update hashF ud = .ok sd →
        lookupKey "hashed_password" sd = some (.pstr (hashF p))
        ∧ lookupKey "password" sd = none)
    ∧ (∀ (hashF : String → String) (ud sd : MongoDoc) (k : String),
        k ≠ "username" → k ≠ "password" → k ≠ "hashed_password" →
        prepare_update hashF ud = .ok sd →
        lookupKey k sd = lookupKey k ud)
    ∧ (∀ (sd doc : MongoDoc) (k : String) (v : PValue),
        (sd.map Prod.fst).Nodup → lookupKey k sd = some v →
        lookupKey k (applySet sd doc) = some v) := by
  refine ⟨?_, prepare_update_username, ?_, ?_, ?_⟩
  · intro hashF store u ud up store2 b h
    unfold MongoDBUserManager.update_user at h
    cases hprep : prepare_update hashF ud with
    | error e =>
      rw [hprep] at h
      exact absurd h (by simp)
    | ok sd =>
      rw [hprep] at h
      have hu : lookupKey "username" sd = none :=
        prepare_update_username hashF ud sd hprep
      have h4 : (if (!(update_one_set store u sd).2.1) = true ∧ up = true then
          (Except.ok ((update_one_set store u sd).1 ++
            [applySet sd [("username", PValue.pstr u)]], true) :
              Except PyErr (List MongoDoc × Bool))
        else Except.ok ((update_one_set store u sd).1,
          (update_one_set store u sd).2.2)) = Except.ok (store2, b) := h
      by_cases hc : (!(update_one_set store u sd).2.1) = true ∧ up = true
      · rw [if_pos hc] at h4
        rw [Except.ok.injEq, Prod.mk.injEq] at h4
        obtain ⟨hs, hb⟩ := h4
        right
        rw [← hs, List.map_append, update_one_set_usernames store u sd hu]
        congr 1
        show [lookupKey "username" (applySet sd [("username", PValue.pstr u)])] = _
        rw [lookupKey_applySet_none sd "username" hu, lookupKey_cons, if_pos rfl]
      · rw [if_neg hc] at h4
        rw [Except.ok.injEq, Prod.mk.injEq] at h4
        obtain ⟨hs, hb⟩ := h4
        left
        rw [← hs]
        exact update_one_set_usernames store u sd hu
  · intro hashF ud sd p hp h
    have h2 := prepare_update_ok_step2 hashF ud sd h
    have hp1 : lookupKey "password" (prepare_update_step1 ud) = some (.pstr p) := by
      rw [prepare_update_step1_other ud "password" (by decide)]
      exact hp
    exact prepare_update_step2_password hashF _ sd p hp1 h2
  · intro hashF ud sd k h1 h2 h3 h
    have hc := prepare_update_ok_step2 hashF ud sd h
    rw [prepare_update_step2_other hashF _ sd k h2 h3 hc,
        prepare_update_step1_other ud k h1]
  · intro sd doc k v hnd hv
    exact lookupKey_applySet_some sd k v hnd hv doc

theorem C9_update_user_witness :
    ([[("username", PValue.pstr "al"), ("role", PValue.pstr "viewer"),
      ("email", PValue.pstr "a@x")]].map (lookupKey "username")
      = [[("username", PValue.pstr "al"),
          ("role", PValue.pstr "viewer")]].map (lookupKey "username")
    ∨ [[("username", PValue.pstr "al"), ("role", PValue.pstr "viewer"),
      ("email", PValue.pstr "a@x")]].map (lookupKey "username")
      = [[("username", PValue.pstr "al"),
          ("role", PValue.pstr "viewer")]].map (lookupKey "username")
        ++ [some (PValue.pstr "al")])
    ∧ (lookupKey "hashed_password" [("hashed_password", PValue.pstr "pw#")]
        = some (PValue.pstr ((fun s => String.append s "#") "pw"))
      ∧ lookupKey "password" [("hashed_password", PValue.pstr "pw#")] = none)
    ∧ lookupKey "email" [("email", PValue.pstr "a@x")]
        = lookupKey "email"
          [("username", PValue.pstr "x"), ("email", PValue.pstr "a@x")] :=
  ⟨C9_update_user.1 (fun s => s)
      [[("username", PValue.pstr "al"), ("role", PValue.pstr "viewer")]] "al"
      [("username", PValue.pstr "x"), ("email", PValue.pstr "a@x")] false
      [[("username", PValue.pstr "al"), ("role", PValue.pstr "viewer"),
        ("email", PValue.pstr "a@x")]] true rfl,
   C9_update_user.2.2.1 (fun s => String.append s "#")
      [("password", PValue.pstr "pw")] [("hashed_password", PValue.pstr "pw#")]
      "pw" rfl rfl,
   C9_update_user.2.2.2.1 (fun s => s)
      [("username", PValue.pstr "x"), ("email", PValue.pstr "a@x")]
      [("email", PValue.pstr "a@x")] "email"
      (by decide) (by decide) (by decide) rfl⟩

theorem countReads_cons_fetch (o : Nat) (evs : List TransferEv) :
    countReads (.fetch o :: evs) = countReads evs := rfl

theorem countReads_cons_insert (d : List Row) (evs : List TransferEv) :
    countReads (.insertOk d :: evs) = countReads evs := rfl

theorem countReads_cons_count (n : Nat) (evs : List TransferEv) :
    countReads (.countRead n :: evs) = countReads evs + 1 := by
  unfold countReads
  rw [List.filter_cons, if_pos rfl]
  rfl

theorem fetchOffsets_cons_fetch (o : Nat) (evs : List TransferEv) :
    fetchOffsets (.fetch o :: evs) = o :: fetchOffsets evs := rfl

theorem fetchOffsets_cons_insert (d : List Row) (evs : List TransferEv) :
    fetchOffsets (.insertOk d :: evs) = fetchOffsets evs := rfl

theorem fetchOffsets_cons_count (n : Nat) (evs : List TransferEv) :
    fetchOffsets (.countRead n :: evs) = fetchOffsets evs := rfl

theorem transferLoop_no_countRead (t : PgTable) (b : Nat)
    (insertErr : Nat → Option PyErr) (total : Nat) :
    ∀ fuel offset bi,
      countReads (transferLoop t b insertErr total fuel offset bi).1 = 0 := by
  intro fuel
  induction fuel with
  | zero => intro offset bi; rfl
  | succ m ih =>
    intro offset bi
    unfold transferLoop
    by_cases ho : offset < total
    · rw [if_pos ho]
      by_cases hre : (fetch_postgresql_batch t offset b).isEmpty
      · rw [if_pos hre]
        rfl
      · rw [if_neg hre]
        cases hin : insertErr bi with
        | some e => rfl
        | none =>
          show countReads (.fetch offset :: .insertOk
              ((fetch_postgresql_batch t offset b).map convert_decimals_to_float)
            :: (transferLoop t b insertErr total m (offset + b) (bi + 1)).1) = 0
          rw [countReads_cons_fetch, countReads_cons_insert]
          exact ih (offset + b) (bi + 1)
    · rw [if_neg ho]
      rfl

theorem transferLoop_fetchOffsets (t : PgTable) (b : Nat)
    (insertErr : Nat → Option PyErr) (total : Nat) :
    ∀ fuel offset bi, ∃ n,
      fetchOffsets (transferLoop t b insertErr total fuel offset bi).1
        = (List.range n).map (fun i => offset + i * b) := by
  intro fuel
  induction fuel with
  | zero => intro offset bi; exact ⟨0, rfl⟩
  | succ m ih =>
    intro offset bi
    unfold transferLoop
    by_cases ho : offset < total
    · rw [if_pos ho]
      by_cases hre : (fetch_postgresql_batch t offset b).isEmpty
      · rw [if_pos hre]
        refine ⟨1, ?_⟩
        show [offset] = List.map (fun i => offset + i * b) (List.range 1)
        rw [show List.range 1 = [0] from rfl, List.map_cons, List.map_nil]
        simp
      · rw [if_neg hre]
        cases hin : insertErr bi with
        | some e =>
          refine ⟨1, ?_⟩
          show [offset] = List.map (fun i => offset + i * b) (List.range 1)
          rw [show List.range 1 = [0] from rfl, List.map_cons, List.map_nil]
          simp
        | none =>
          obtain ⟨n, hn⟩ := ih (offset + b) (bi + 1)
          refine ⟨n + 1, ?_⟩
          show fetchOffsets (.fetch offset :: .insertOk
              ((fetch_postgresql_batch t offset b).map convert_decimals_to_float)
            :: (transferLoop t b insertErr total m (offset + b) (bi + 1)).1) = _
          rw [fetchOffsets_cons_fetch, fetchOffsets_cons_insert, hn,
              List.range_succ_eq_map, List.map_cons, List.map_map]
          congr 1
          · simp
          · apply List.map_congr_left
            intro i hi
            show offset + b + i * b = offset + Nat.succ i * b
            rw [Nat.succ_mul]
            ring
    · rw [if_neg ho]
      exact ⟨0, rfl⟩

theorem fetch_batch_isEmpty_false (t : PgTable) (offset b : Nat) (hb : 0 < b)
    (ho : offset < t.rows.length) :
    (fetch_postgresql_batch t offset b).isEmpty = false := by
  cases hcase : (fetch_postgresql_batch t offset b).isEmpty
  · rfl
  · exfalso
    have hnil := List.isEmpty_iff.mp hcase
    unfold fetch_postgresql_batch at hnil
    rw [List.take_eq_nil_iff] at hnil
    rcases hnil with hb0 | hdrop
    · omega
    · rw [List.drop_eq_nil_iff] at hdrop
      omega

theorem transferLoop_success (t : PgTable) (b : Nat)
    (insertErr : Nat → Option PyErr) (hb : 0 < b)
    (hall : ∀ j, insertErr j = none) :
    ∀ fuel offset bi, t.rows.length ≤ offset + fuel →
      (transferLoop t b insertErr t.rows.length fuel offset bi).2.2 = .ok ()
      ∧ (transferLoop t b insertErr t.rows.length fuel offset bi).2.1
          = (t.rows.drop offset).map convert_decimals_to_float := by
  intro fuel
  induction fuel with
  | zero =>
    intro offset bi hf
    refine ⟨rfl, ?_⟩
    rw [List.drop_eq_nil_of_le (by omega)]
    rfl
  | succ m ih =>
    intro offset bi hf
    unfold transferLoop
    by_cases ho : offset < t.rows.length
    · rw [if_pos ho,
          if_neg (by rw [fetch_batch_isEmpty_false t offset b hb ho]; exact Bool.false_ne_true),
          hall bi]
      obtain ⟨ihok, ihins⟩ := ih (offset + b) (bi + 1) (by omega)
      constructor
      · show (transferLoop t b insertErr t.rows.length m (offset + b) (bi + 1)).2.2
            = .ok ()
        exact ihok
      · show (fetch_postgresql_batch t offset b).map convert_decimals_to_float ++
            (transferLoop t b insertErr t.rows.length m (offset + b) (bi + 1)).2.1
          = (t.rows.drop offset).map convert_decimals_to_float
        rw [ihins, ← List.map_append]
        congr 1
        unfold fetch_postgresql_batch
        rw [← List.drop_drop]
        exact List.take_append_drop b (t.rows.drop offset)
    · rw [if_neg ho]
      refine ⟨rfl, ?_⟩
      rw [List.drop_eq_nil_of_le (by omega)]
      rfl

theorem transferLoop_failure (t : PgTable) (b : Nat)
    (insertErr : Nat → Option PyErr) (hb : 0 < b) (k : Nat) (e : PyErr)
    (hk : insertErr k = some e) (hprev : ∀ j, j < k → insertErr j = none)
    (hkb : k * b < t.rows.length) :
    ∀ fuel bi offset, offset = bi * b → bi ≤ k →
      t.rows.length ≤ offset + fuel →
      (transferLoop t b insertErr t.rows.length fuel offset bi).2.2 = .error e
      ∧ (transferLoop t b insertErr t.rows.length fuel offset bi).2.1
          = ((t.rows.take (k * b)).drop offset).map convert_decimals_to_float := by
  intro fuel
  induction fuel with
  | zero =>
    intro bi offset hoff hbik hf
    exfalso
    have hle : offset ≤ k * b := by
      rw [hoff]
      exact Nat.mul_le_mul_right b hbik
    omega
  | succ m ih =>
    intro bi offset hoff hbik hf
    have hle : offset ≤ k * b := by
      rw [hoff]
      exact Nat.mul_le_mul_right b hbik
    have ho : offset < t.rows.length := by omega
    unfold transferLoop
    rw [if_pos ho,
        if_neg (by rw [fetch_batch_isEmpty_false t offset b hb ho]; exact Bool.false_ne_true)]
    by_cases hbk : bi = k
    · subst hbk
      rw [hk]
      refine ⟨rfl, ?_⟩
      show ([] : List Row)
          = ((t.rows.take (bi * b)).drop offset).map convert_decimals_to_float
      rw [hoff, List.drop_eq_nil_of_le (by rw [List.length_take]; omega)]
      rfl
    · have hbik2 : bi < k := lt_of_le_of_ne hbik hbk
      rw [hprev bi hbik2]
      have hble : offset + b ≤ k * b := by
        rw [hoff, ← Nat.succ_mul]
        exact Nat.mul_le_mul_right b hbik2
      obtain ⟨ihok, ihins⟩ := ih (bi + 1) (offset + b)
        (by rw [hoff, Nat.succ_mul]) (by omega) (by omega)
      constructor
      · show (transferLoop t b insertErr t.rows.length m (offset + b) (bi + 1)).2.2
            = .error e
        exact ihok
      · show (fetch_postgresql_batch t offset b).map convert_decimals_to_float ++
            (transferLoop t b insertErr t.rows.length m (offset + b) (bi + 1)).2.1
          = ((t.rows.take (k * b)).drop offset).map convert_decimals_to_float
        rw [ihins, ← List.map_append]
        congr 1
        have h1 : (t.rows.take (k * b)).drop offset
            = (t.rows.drop offset).take (k * b - offset) := by
          have h := List.take_drop offset (k * b - offset) t.rows
          rw [show offset + (k * b - offset) = k * b by omega] at h
          exact h.symm
        have h2 : (t.rows.take (k * b)).drop (offset + b)
            = (t.rows.drop (offset + b)).take (k * b - (offset + b)) := by
          have h := List.take_drop (offset + b) (k * b - (offset + b)) t.rows
          rw [show (offset + b) + (k * b - (offset + b)) = k * b by omega] at h
          exact h.symm
        rw [h1, h2]
        unfold fetch_postgresql_batch
        rw [show k * b - offset = b + (k * b - (offset + b)) by omega,
            List.take_add]
        congr 1
        rw [List.drop_drop]

/-- C7: a table transfer reads the total row count exactly once (the single
`countRead` event, emitted first), pages through the rows at the fixed batch
size with offsets `0, b, 2*b, ...`; when every batch insert succeeds the
transfer completes with every converted row inserted, and when the `k`-th
insert is the first to fail the error propagates, the transfer stops, and
exactly the converted rows of the `k` batches inserted before the failure
remain inserted — nothing is rolled back. -/
theorem C7_transfer_table_data (t : PgTable) (b : Nat)
    (insertErr : Nat → Option PyErr) (hb : 0 < b) :
    countReads (transfer_table_data t b insertErr).1 = 1
    ∧ (transfer_table_data t b insertErr).1.head?
        = some (.countRead t.rows.length)
    ∧ (∃ n, fetchOffsets (transfer_table_data t b insertErr).1
        = (List.range n).map (fun i => i * b))
    ∧ ((∀ j, insertErr j = none) →
        (transfer_table_data t b insertErr).2.2 = .ok ()
        ∧ (transfer_table_data t b insertErr).2.1
            = t.rows.map convert_decimals_to_float)
    ∧ (∀ k e, insertErr k = some e → (∀ j, j < k → insertErr j = none) →
        k * b < t.rows.length →
        (transfer_table_data t b insertErr).2.2 = .error e
        ∧ (transfer_table_data t b insertErr).2.1
            = (t.rows.take (k * b)).map convert_decimals_to_float) := by
  refine ⟨?_, rfl, ?_, ?_, ?_⟩
  · show countReads (.countRead t.rows.length ::
      (transferLoop t b insertErr t.rows.length (t.rows.length + 1) 0 0).1) = 1
    rw [countReads_cons_count, transferLoop_no_countRead]
  · obtain ⟨n, hn⟩ := transferLoop_fetchOffsets t b insertErr t.rows.length
      (t.rows.length + 1) 0 0
    refine ⟨n, ?_⟩
    show fetchOffsets (.countRead t.rows.length ::
      (transferLoop t b insertErr t.rows.length (t.rows.length + 1) 0 0).1)
        = (List.range n).map (fun i => i * b)
    rw [fetchOffsets_cons_count, hn]
    apply List.map_congr_left
    intro i hi
    exact Nat.zero_add (i * b)
  · intro hall
    have h := transferLoop_success t b insertErr hb hall
      (t.rows.length + 1) 0 0 (by omega)
    refine ⟨h.1, ?_⟩
    show (transferLoop t b insertErr t.rows.length (t.rows.length + 1) 0 0).2.1
        = t.rows.map convert_decimals_to_float
    rw [h.2, List.drop_zero]
  · intro k e hk hprev hkb
    have h := transferLoop_failure t b insertErr hb k e hk hprev hkb
      (t.rows.length + 1) 0 0 (Nat.zero_mul b).symm (Nat.zero_le k) (by omega)
    refine ⟨h.1, ?_⟩
    show (transferLoop t b insertErr t.rows.length (t.rows.length + 1) 0 0).2.1
        = (t.rows.take (k * b)).map convert_decimals_to_float
    rw [h.2, List.drop_zero]

theorem C7_transfer_table_data_witness :
    countReads (transfer_table_data
      { rows := [[("a", PValue.pdecimal 1)], [("a", PValue.pdecimal 2)],
                 [("a", PValue.pdecimal 3)]] } 2 (fun _ => none)).1 = 1
    ∧ (transfer_table_data
      { rows := [[("a", PValue.pdecimal 1)], [("a", PValue.pdecimal 2)],
                 [("a", PValue.pdecimal 3)]] } 2 (fun _ => none)).2.2 = .ok ()
    ∧ (transfer_table_data
      { rows := [[("a", PValue.pdecimal 1)], [("a", PValue.pdecimal 2)],
                 [("a", PValue.pdecimal 3)]] } 2 (fun _ => none)).2.1
        = [[("a", PValue.pfloat 1)], [("a", PValue.pfloat 2)],
           [("a", PValue.pfloat 3)]]
    ∧ (transfer_table_data
      { rows := [[("a", PValue.pdecimal 1)], [("a", PValue.pdecimal 2)],
                 [("a", PValue.pdecimal 3)]] } 2
        (fun j => if j = 1 then some (PyErr.crudError "boom") else none)).2.2
        = .error (PyErr.crudError "boom")
    ∧ (transfer_table_data
      { rows := [[("a", PValue.pdecimal 1)], [("a", PValue.pdecimal 2)],
                 [("a", PValue.pdecimal 3)]] } 2
        (fun j => if j = 1 then some (PyErr.crudError "boom") else none)).2.1
        = [[("a", PValue.pfloat 1)], [("a", PValue.pfloat 2)]] := by
  have h := C7_transfer_table_data
    { rows := [[("a", PValue.pdecimal 1)], [("a", PValue.pdecimal 2)],
               [("a", PValue.pdecimal 3)]] } 2 (fun _ => none) (by decide)
  have h2 := C7_transfer_table_data
    { rows := [[("a", PValue.pdecimal 1)], [("a", PValue.pdecimal 2)],
               [("a", PValue.pdecimal 3)]] } 2
    (fun j => if j = 1 then some (PyErr.crudError "boom") else none) (by decide)
  have hfail := h2.2.2.2.2 1 (PyErr.crudError "boom") rfl
    (fun j hj => by
      have hj0 : j = 0 := by omega
      subst hj0
      rfl)
    (by decide)
  refine ⟨h.1, (h.2.2.2.1 (fun j => rfl)).1, ?_, hfail.1, ?_⟩
  · rw [(h.2.2.2.1 (fun j => rfl)).2]
    rfl
  · rw [hfail.2]
    rfl
